import Mathlib

/-!
# Verification of `src/cmd/stress/analyze_results.py`

A shallow embedding of the benchmark-report analysis script.  Report text is
modelled as `List Char`; Python `float` values arising from the decimal tokens
of the reports are modelled as exact rationals (`ℚ`); a Python exception
escaping a function is modelled as `Option.none` (or a `Bool` "raised" flag
where the emitted events up to the exception matter).

The script's three regular expressions are embedded by hand-translating, for
each concrete pattern, the backtracking search that CPython's `re` engine
performs: leftmost match, greedy `\w+` / `[\d.]+` with backtracking, and the
non-greedy `.*?` scanning forward with `re.DOTALL`.
-/

/-- Python `\w` on the ASCII inputs at hand: letters, digits and underscore. -/
def isWordChar (c : Char) : Bool := c.isAlpha || c.isDigit || c = '_'

/-- The character class `[\d.]` of the script's regexes: digits and dot. -/
def isNumChar (c : Char) : Bool := c.isDigit || c = '.'

/-- The literal `lit` occurs in `cs` starting at index `i`. -/
def literalAt (cs : List Char) (i : Nat) (lit : List Char) : Prop :=
  (cs.drop i).take lit.length = lit

instance (cs : List Char) (i : Nat) (lit : List Char) : Decidable (literalAt cs i lit) :=
  inferInstanceAs (Decidable ((cs.drop i).take lit.length = lit))

/-- Length of the maximal run of `\w` characters starting at index `i`. -/
def wordRunLen (cs : List Char) (i : Nat) : Nat :=
  ((cs.drop i).takeWhile isWordChar).length

/-- Length of the maximal run of `[\d.]` characters starting at index `i`. -/
def numRunLen (cs : List Char) (i : Nat) : Nat :=
  ((cs.drop i).takeWhile isNumChar).length

/-- Length of the maximal run of `\d` characters starting at index `i`. -/
def digitRunLen (cs : List Char) (i : Nat) : Nat :=
  ((cs.drop i).takeWhile Char.isDigit).length

/-- The sliceAt of `cs` of length `len` starting at index `i`. -/
def sliceAt (cs : List Char) (i len : Nat) : List Char :=
  (cs.drop i).take len

/-- The literal `'Running deletion test with pattern: '` (36 characters). -/
def startLit : List Char := "Running deletion test with pattern: ".toList

/-- The literal `'Deletion completed in '` (22 characters). -/
def doneLit : List Char := "Deletion completed in ".toList

/-- The literal `' keys/sec)'` (10 characters). -/
def tailLit : List Char := " keys/sec)".toList

/-- Backtracking for `([\d.]+) keys/sec\)` at index `p`: the engine tries the
longest `[\d.]+` prefix first (length `e+1` down to `1`) and requires the
literal `' keys/sec)'` right after it.  Returns the rate token and the index
one past the whole match. -/
def tryE (cs : List Char) (p : Nat) : Nat → Option (List Char × Nat)
  | 0 => none
  | e + 1 =>
    if literalAt cs (p + (e + 1)) tailLit then
      some (sliceAt cs p (e + 1), p + (e + 1) + tailLit.length)
    else
      tryE cs p e

/-- Backtracking for the `\w+` part of the duration token `([\d.]+\w+) \(`,
with the `[\d.]+` part fixed to length `a`: try `\w+` of length `b+1` down to
`1`, require `' ('` right after it, then hand over to the rate token.
Returns duration token, rate token, and the index one past the whole match. -/
def tryB (cs : List Char) (m a : Nat) : Nat → Option (List Char × List Char × Nat)
  | 0 => none
  | b + 1 =>
    if literalAt cs (m + a + (b + 1)) [' ', '('] then
      match tryE cs (m + a + (b + 1) + 2) (numRunLen cs (m + a + (b + 1) + 2)) with
      | some (rate, stop) => some (sliceAt cs m (a + (b + 1)), rate, stop)
      | none => tryB cs m a b
    else
      tryB cs m a b

/-- Backtracking for the `[\d.]+` part of the duration token: try length
`a+1` down to `1`; for each, the `\w+` part ranges over the maximal word run
that follows. -/
def tryA (cs : List Char) (m : Nat) : Nat → Option (List Char × List Char × Nat)
  | 0 => none
  | a + 1 =>
    match tryB cs m (a + 1) (wordRunLen cs (m + (a + 1))) with
    | some r => some r
    | none => tryA cs m a

/-- Attempt the completion part
`Deletion completed in ([\d.]+\w+) \(([\d.]+) keys/sec\)` at index `k`. -/
def completionAt (cs : List Char) (k : Nat) : Option (List Char × List Char × Nat) :=
  if literalAt cs k doneLit then
    tryA cs (k + doneLit.length) (numRunLen cs (k + doneLit.length))
  else
    none

/-- The non-greedy `.*?` (with `re.DOTALL`): scan indices `k, k+1, ...` for the
earliest one where the completion part matches; `fuel` bounds the scan at the
end of the text. -/
def tryGaps (cs : List Char) : Nat → Nat → Option (List Char × List Char × Nat)
  | _, 0 => none
  | k, fuel + 1 =>
    match completionAt cs k with
    | some r => some r
    | none => tryGaps cs (k + 1) fuel

/-- Backtracking for the pattern-name `(\w+)` starting at index `j`: the
engine tries the longest word run first (length `w+1` down to `1`); for each,
the non-greedy gap scans forward from just after the name. -/
def tryW (cs : List Char) (j : Nat) :
    Nat → Option (List Char × List Char × List Char × Nat)
  | 0 => none
  | w + 1 =>
    match tryGaps cs (j + (w + 1)) (cs.length + 1 - (j + (w + 1))) with
    | some (t, r, stop) => some (sliceAt cs j (w + 1), t, r, stop)
    | none => tryW cs j w

/-- One match attempt of the whole trial-block regex at index `i`: the start
literal, then the pattern name, then the non-greedy gap, then the completion.
Returns `(patternName, durationToken, rateToken, endIndex)`. -/
def matchAt (cs : List Char) (i : Nat) :
    Option (List Char × List Char × List Char × Nat) :=
  if literalAt cs i startLit then
    tryW cs (i + startLit.length) (wordRunLen cs (i + startLit.length))
  else
    none

/-- The `re.findall` scanning: try a match at each index from `i`; on success
continue one past the end of the match (all matches here are nonempty), on
failure advance one character.  `fuel` bounds the scan; `cs.length + 1` steps
always suffice since every step advances the index by at least one. -/
def findallFrom (cs : List Char) : Nat → Nat → List (List Char × List Char × List Char)
  | 0, _ => []
  | fuel + 1, i =>
    match matchAt cs i with
    | some (p, t, r, stop) => (p, t, r) :: findallFrom cs fuel (max stop (i + 1))
    | none => findallFrom cs fuel (i + 1)

/-- All trial-block matches of the report text, in scanning order
(`re.findall(r'Running deletion test with pattern: (\w+).*?Deletion completed
in ([\d.]+\w+) \(([\d.]+) keys/sec\)', content, re.DOTALL)`). -/
def findall (cs : List Char) : List (List Char × List Char × List Char) :=
  findallFrom cs (cs.length + 1) 0

/-- The integer denoted by a digit string (most significant digit first). -/
def natOfDigits (ds : List Char) : Nat :=
  ds.foldl (fun acc c => acc * 10 + (c.toNat - '0'.toNat)) 0

/-- One attempt of `re.search(lit ++ r'(\d+)')` at index `i`: the literal
followed by at least one digit; the group is the maximal digit run. -/
def attemptNat (cs : List Char) (lit : List Char) (i : Nat) : Option Nat :=
  if literalAt cs i lit ∧ 0 < digitRunLen cs (i + lit.length) then
    some (natOfDigits (sliceAt cs (i + lit.length) (digitRunLen cs (i + lit.length))))
  else
    none

/-- Leftmost-match scan for `lit ++ r'(\d+)'` starting at index `i`. -/
def searchNatFrom (cs : List Char) (lit : List Char) : Nat → Nat → Option Nat
  | 0, _ => none
  | fuel + 1, i =>
    match attemptNat cs lit i with
    | some v => some v
    | none => searchNatFrom cs lit fuel (i + 1)

/-- Model of `re.search(lit ++ r'(\d+)', content)`, returning the captured integer. -/
def searchNat (cs : List Char) (lit : List Char) : Option Nat :=
  searchNatFrom cs lit (cs.length + 1) 0

/-- The literal `'Keys: '`. -/
def keysLit : List Char := "Keys: ".toList

/-- The literal `'Branching Factor: '`. -/
def bfLit : List Char := "Branching Factor: ".toList

/-- Python `float()` on the decimal tokens produced by the report grammar
(digits and at most one dot), as an exact rational; `none` models the
`ValueError` Python raises on any other string. -/
def parsePyFloat (cs : List Char) : Option ℚ :=
  match cs.dropWhile Char.isDigit with
  | [] =>
    if (cs.takeWhile Char.isDigit).isEmpty then none
    else some (natOfDigits (cs.takeWhile Char.isDigit) : ℚ)
  | '.' :: frac =>
    if frac.all Char.isDigit ∧ (cs.takeWhile Char.isDigit ≠ [] ∨ frac ≠ []) then
      some ((natOfDigits (cs.takeWhile Char.isDigit) : ℚ) +
        (natOfDigits frac : ℚ) / (10 : ℚ) ^ frac.length)
    else
      none
  | _ => none

/-- Model of `'ms' in time_str`: the two-character substring test of line 28. -/
def containsMS : List Char → Bool
  | [] => false
  | [_] => false
  | c1 :: c2 :: rest => (c1 = 'm' && c2 = 's') || containsMS (c2 :: rest)

/-- Model of `time_str.replace('ms', '')`: remove every (leftmost, non-overlapping)
occurrence of `'ms'`. -/
def removeMS : List Char → List Char
  | [] => []
  | [c] => [c]
  | c1 :: c2 :: rest =>
    if c1 = 'm' ∧ c2 = 's' then removeMS rest else c1 :: removeMS (c2 :: rest)

/-- Lines 27–33: convert the captured duration token to seconds.  `none`
models the `ValueError` when the string left after stripping units is not a
valid Python float. -/
def convertTime (t : List Char) : Option ℚ :=
  if containsMS t then
    (parsePyFloat (removeMS t)).map (fun q => q / 1000)
  else if 's' ∈ t then
    parsePyFloat (t.filter (fun c => c ≠ 's'))
  else
    parsePyFloat t

/-- One deletion-pattern trial extracted from a report. -/
structure PatternResult where
  pattern : String
  time_sec : ℚ
  keys_per_sec : ℚ
deriving DecidableEq, Repr

/-- One parsed report (`parse_result_file`'s returned dict). -/
structure ReportMetrics where
  tree_size : Nat
  branching_factor : Nat
  pattern_results : List PatternResult
deriving DecidableEq, Repr

/-- Line 15, `tree_size = int(match.group(1)) if match else 0`, for `r'Keys: (\d+)'`. -/
def treeSizeOf (cs : List Char) : Nat :=
  (searchNat cs keysLit).getD 0

/-- The same for `r'Branching Factor: (\d+)'`. -/
def bfOf (cs : List Char) : Nat :=
  (searchNat cs bfLit).getD 0

/-- The loop of lines 26–39: convert each regex match into a `PatternResult`;
`none` models a `ValueError` escaping from one of the `float` conversions. -/
def buildPatternResults : List (List Char × List Char × List Char) → Option (List PatternResult)
  | [] => some []
  | (p, t, r) :: rest =>
    match convertTime t, parsePyFloat r, buildPatternResults rest with
    | some ts, some kps, some l => some (⟨String.mk p, ts, kps⟩ :: l)
    | _, _, _ => none

/-- Model of `parse_result_file`, applied to the text of the file (the file read
itself is modelled at the call sites).  `none` models an escaping exception. -/
def parse_result_file (content : List Char) : Option ReportMetrics :=
  match buildPatternResults (findall content) with
  | some prs => some ⟨treeSizeOf content, bfOf content, prs⟩
  | none => none

/-!
## Aggregation (lines 64–80 and 108–124)
-/

/-- All pattern strings of all reports, in report order then occurrence order
(the elements added to the Python `set` on lines 64–67). -/
def collectPatterns (results : List ReportMetrics) : List String :=
  results.flatMap (fun r => r.pattern_results.map (fun pr => pr.pattern))

/-- Line 69, `patterns = sorted(list(patterns))`: the distinct pattern
strings across all reports, sorted lexicographically. -/
def sortedPatterns (results : List ReportMetrics) : List String :=
  (collectPatterns results).dedup.insertionSort (· ≤ ·)

/-- The nested accumulation loop of lines 72–79: for one pattern `p`, build
the `x` and `y` lists by appending, over reports in loader order and trial
results in report order. -/
def collectXY (results : List ReportMetrics) (iv : ReportMetrics → Nat) (p : String) :
    List Nat × List ℚ :=
  results.foldl
    (fun acc r =>
      r.pattern_results.foldl
        (fun acc2 pr =>
          if pr.pattern = p then (acc2.1 ++ [iv r], acc2.2 ++ [pr.keys_per_sec])
          else acc2)
        acc)
    ([], [])

/-- One plotted line: its pattern label, its palette position (the `i` of
`colors[i]` with `colors = plt.cm.tab10(np.linspace(0, 1, len(patterns)))`,
so the color is determined by `colorIdx` and `paletteSize`), and its
`(x, y)` points as paired by `plt.plot(x, y)`. -/
structure Series where
  pattern : String
  colorIdx : Nat
  paletteSize : Nat
  points : List (Nat × ℚ)
deriving DecidableEq, Repr

/-- The `for i, pattern in enumerate(patterns)` loop of lines 72–80: one
series per canonical pattern, in canonical order. -/
def buildSeries (results : List ReportMetrics) (iv : ReportMetrics → Nat) : List Series :=
  (sortedPatterns results).enum.map
    (fun ip =>
      { pattern := ip.2
        colorIdx := ip.1
        paletteSize := (sortedPatterns results).length
        points := ((collectXY results iv ip.2).1).zip ((collectXY results iv ip.2).2) })

/-!
## The world, observable events, and the three analyses
-/

/-- The file system as seen by the script: whether the `results` directory
exists, and the contents of the files that exist. -/
structure World where
  resultsDirExists : Bool
  files : List (String × List Char)
deriving DecidableEq, Repr

/-- Model of `os.path.exists(p)` and of reading file `p`: first binding of `p`, if any. -/
def lookupFile (files : List (String × List Char)) (p : String) : Option (List Char) :=
  match files.find? (fun f => f.1 = p) with
  | some f => some f.2
  | none => none

/-- Observable events of a run: printed messages, file reads, and the two
kinds of `savefig` artifacts with the data they encode. -/
inductive Ev where
  | msg : String → Ev
  | readF : String → Ev
  | writeLineChart : String → List Series → Ev
  | writeBarChart : String → Nat → List (String × ℚ) → Ev
deriving DecidableEq, Repr

/-- The load loops of lines 52–55 and 96–99: for each candidate path in
order, skip it if absent, else read and parse it.  The returned flag is
`none` when a parse exception escapes (aborting the loop); the event list
records the file reads performed up to that point. -/
def loadReports (files : List (String × List Char)) :
    List String → List Ev × Option (List ReportMetrics)
  | [] => ([], some [])
  | p :: rest =>
    match lookupFile files p with
    | none => loadReports files rest
    | some c =>
      match parse_result_file c with
      | none => ([Ev.readF p], none)
      | some r =>
        match loadReports files rest with
        | (evs, res) => (Ev.readF p :: evs, res.map (fun l => r :: l))

/-- The candidates `sizes = [10000, 100000, 1000000]` mapped through
`f"results/size_{size}.txt"`. -/
def sizePaths : List String :=
  [10000, 100000, 1000000].map (fun n => "results/size_" ++ toString n ++ ".txt")

/-- The candidates `factors = [16, 64, 256, 1024]` mapped through `f"results/bf_{bf}.txt"`. -/
def bfPaths : List String :=
  [16, 64, 256, 1024].map (fun n => "results/bf_" ++ toString n ++ ".txt")

/-- Model of `analyze_tree_sizes` (lines 47–89): load the size reports, skip with a
diagnostic if none, else save the line chart.  The `Bool` is `true` when an
exception escapes the function. -/
def analyze_tree_sizes (w : World) : List Ev × Bool :=
  match loadReports w.files sizePaths with
  | (evs, none) => (evs, true)
  | (evs, some results) =>
    if results.isEmpty then
      (evs ++ [Ev.msg "No tree size results found."], false)
    else
      (evs ++ [Ev.writeLineChart "results/tree_size_performance.png"
        (buildSeries results (fun r => r.tree_size))], false)

/-- Model of `analyze_branching_factors` (lines 91–133): identical shape with the
branching-factor candidates, variable and output path. -/
def analyze_branching_factors (w : World) : List Ev × Bool :=
  match loadReports w.files bfPaths with
  | (evs, none) => (evs, true)
  | (evs, some results) =>
    if results.isEmpty then
      (evs ++ [Ev.msg "No branching factor results found."], false)
    else
      (evs ++ [Ev.writeLineChart "results/branching_factor_performance.png"
        (buildSeries results (fun r => r.branching_factor))], false)

/-- The tuple order used by `sorted(zip(patterns, speeds))` on line 156:
lexicographic on (pattern name, speed). -/
def pairLE (x y : String × ℚ) : Prop :=
  x.1 < y.1 ∨ (x.1 = y.1 ∧ x.2 ≤ y.2)

instance : DecidableRel pairLE := fun x y =>
  inferInstanceAs (Decidable (x.1 < y.1 ∨ (x.1 = y.1 ∧ x.2 ≤ y.2)))

instance : IsTotal (String × ℚ) pairLE where
  total x y := by
    rcases lt_trichotomy x.1 y.1 with h | h | h
    · exact Or.inl (Or.inl h)
    · rcases le_total x.2 y.2 with h2 | h2
      · exact Or.inl (Or.inr ⟨h, h2⟩)
      · exact Or.inr (Or.inr ⟨h.symm, h2⟩)
    · exact Or.inr (Or.inl h)

instance : IsTrans (String × ℚ) pairLE where
  trans x y z := by
    rintro (h1 | ⟨e1, l1⟩) (h2 | ⟨e2, l2⟩)
    · exact Or.inl (lt_trans h1 h2)
    · exact Or.inl (e2 ▸ h1)
    · exact Or.inl (e1 ▸ h2)
    · exact Or.inr ⟨e1.trans e2, le_trans l1 l2⟩

/-- Line 156: sort the `(pattern, speed)` pairs by tuple comparison (Python's
`sorted` is a stable sort; so is insertion sort). -/
def sortPairs (l : List (String × ℚ)) : List (String × ℚ) :=
  l.insertionSort pairLE

/-- The path used by `analyze_patterns`. -/
def patternPath : String := "results/size_1000000.txt"

/-- Model of `analyze_patterns` (lines 135–167): read the single fixed-size report (a
diagnostic and return if absent), collect one `(pattern, speed)` pair per
trial result, sort by tuple order, save the bar chart. -/
def analyze_patterns (w : World) : List Ev × Bool :=
  match lookupFile w.files patternPath with
  | none => ([Ev.msg ("File " ++ patternPath ++ " not found.")], false)
  | some c =>
    match parse_result_file c with
    | none => ([Ev.readF patternPath], true)
    | some r =>
      ([Ev.readF patternPath,
        Ev.writeBarChart "results/pattern_performance.png" r.tree_size
          (sortPairs (r.pattern_results.map (fun pr => (pr.pattern, pr.keys_per_sec))))],
       false)

/-- Model of `main` (lines 169–179): the directory pre-check, then the three analyses
in sequence; an exception escaping one analysis propagates and aborts the
run (the flag of the result is `true` and later analyses never execute). -/
def mainRun (w : World) : List Ev × Bool :=
  if w.resultsDirExists = false then
    ([Ev.msg "Results directory not found."], false)
  else
    match analyze_tree_sizes w with
    | (e1, true) => (e1, true)
    | (e1, false) =>
      match analyze_branching_factors w with
      | (e2, true) => (e1 ++ e2, true)
      | (e2, false) =>
        match analyze_patterns w with
        | (e3, true) => (e1 ++ e2 ++ e3, true)
        | (e3, false) =>
          (e1 ++ e2 ++ e3 ++ [Ev.msg "Analysis complete. Graphs saved to results directory."],
           false)

/-!
## Auxiliary definitions for the claims
-/

/-- The aggregation contract as the spec states it (§4.3): for one pattern,
one `(independentVariable, keysPerSecond)` point per occurrence of the
pattern, reports in loader order, occurrences in report order, no
deduplication or averaging. -/
def aggregatePointsSpec (results : List ReportMetrics) (iv : ReportMetrics → Nat)
    (p : String) : List (Nat × ℚ) :=
  results.flatMap
    (fun r =>
      (r.pattern_results.filter (fun pr => pr.pattern = p)).map
        (fun pr => (iv r, pr.keys_per_sec)))

/-- A `'Keys: <integer>'` marker occurs somewhere in the text (a match
attempt of `r'Keys: (\d+)'` succeeds at some index). -/
def hasKeysMarker (cs : List Char) : Bool :=
  (List.range (cs.length + 1)).any (fun i => (attemptNat cs keysLit i).isSome)

/-- A `'Branching Factor: <integer>'` marker occurs somewhere in the text. -/
def hasBFMarker (cs : List Char) : Bool :=
  (List.range (cs.length + 1)).any (fun i => (attemptNat cs bfLit i).isSome)

/-- The trial start marker occurs somewhere in the text. -/
def hasStartMarker (cs : List Char) : Bool :=
  (List.range (cs.length + 1)).any (fun i => decide (literalAt cs i startLit))

/-- A report whose only anomaly is a duplicated pattern name: two complete
trial blocks, both for pattern `random`. -/
def dupPatternText : List Char :=
  ("Running deletion test with pattern: random\nDeletion completed in 2s (8 keys/sec)\n" ++
   "Running deletion test with pattern: random\nDeletion completed in 4s (4 keys/sec)").toList

/-- A world whose fixed-size report is `dupPatternText`. -/
def cxPatternWorld : World := ⟨true, [(patternPath, dupPatternText)]⟩

/-- A report whose duration token `1.2.3x` makes `float` raise `ValueError`
during `parse_result_file`. -/
def badSizeText : List Char :=
  "Running deletion test with pattern: random\nDeletion completed in 1.2.3x (8 keys/sec)".toList

/-- A world where the first tree-size report is malformed while the report
used by the by-pattern analysis is present and valid. -/
def cxRunWorld : World :=
  ⟨true, [("results/size_10000.txt", badSizeText), (patternPath, "Keys: 7".toList)]⟩

/-- Two start markers followed by a single completion marker. -/
def twoStartText : List Char :=
  ("Running deletion test with pattern: alpha\n" ++
   "Running deletion test with pattern: beta\n" ++
   "Deletion completed in 2s (8 keys/sec)").toList

/-- A start marker never followed by a completion marker. -/
def danglingText : List Char :=
  "Running deletion test with pattern: alpha\nno completion here".toList

/-- Files for the missing-file scenario: the 10000 and 1000000 size reports
exist, the 100000 one does not. -/
def gapFiles : List (String × List Char) :=
  [("results/size_10000.txt", "Keys: 5".toList),
   ("results/size_1000000.txt", "Keys: 7".toList)]

set_option maxRecDepth 100000

/-!
## Lemmas about the regex engine
-/

theorem literalAt_false_of_le (cs lit : List Char) (i : Nat)
    (hlit : lit ≠ []) (h : cs.length ≤ i) : ¬ literalAt cs i lit := by
  unfold literalAt
  rw [List.drop_eq_nil_of_le h, List.take_nil]
  exact fun hh => hlit hh.symm

theorem tryGaps_none (cs : List Char) (h : ∀ k, completionAt cs k = none) :
    ∀ fuel k, tryGaps cs k fuel = none := by
  intro fuel
  induction fuel with
  | zero => intro k; rfl
  | succ n ih =>
    intro k
    simp only [tryGaps, h k]
    exact ih (k + 1)

theorem tryW_none (cs : List Char) (h : ∀ k, completionAt cs k = none) :
    ∀ w j, tryW cs j w = none := by
  intro w
  induction w with
  | zero => intro j; rfl
  | succ n ih =>
    intro j
    simp only [tryW, tryGaps_none cs h]
    exact ih j

theorem matchAt_none_of_no_completion (cs : List Char)
    (h : ∀ k, completionAt cs k = none) (i : Nat) : matchAt cs i = none := by
  unfold matchAt
  split
  · exact tryW_none cs h _ _
  · rfl

theorem findallFrom_nil (cs : List Char) (h : ∀ i, matchAt cs i = none) :
    ∀ fuel i, findallFrom cs fuel i = [] := by
  intro fuel
  induction fuel with
  | zero => intro i; rfl
  | succ n ih =>
    intro i
    simp only [findallFrom, h i]
    exact ih _

theorem parse_of_no_match (cs : List Char) (h : ∀ i, matchAt cs i = none) :
    parse_result_file cs = some ⟨treeSizeOf cs, bfOf cs, []⟩ := by
  unfold parse_result_file findall
  rw [findallFrom_nil cs h]
  rfl

theorem completionAt_none_of_le (cs : List Char) (k : Nat) (h : cs.length ≤ k) :
    completionAt cs k = none := by
  unfold completionAt
  rw [if_neg (literalAt_false_of_le cs doneLit k (by decide) h)]

theorem completionAt_none_everywhere (cs : List Char)
    (h : ∀ k, k ≤ cs.length → completionAt cs k = none) :
    ∀ k, completionAt cs k = none := by
  intro k
  by_cases hk : k ≤ cs.length
  · exact h k hk
  · exact completionAt_none_of_le cs k (le_of_lt (Nat.lt_of_not_le hk))

theorem matchAt_none_of_no_start (cs : List Char) (h : hasStartMarker cs = false)
    (i : Nat) : matchAt cs i = none := by
  unfold matchAt
  rw [if_neg]
  by_cases hi : i ≤ cs.length
  · intro hlit
    rw [hasStartMarker, List.any_eq_false] at h
    have := h i (List.mem_range.mpr (by omega))
    simp [hlit] at this
  · exact literalAt_false_of_le cs startLit i (by decide) (by omega)

theorem searchNatFrom_none (cs lit : List Char) :
    ∀ fuel start, (∀ j, start ≤ j → j < start + fuel → attemptNat cs lit j = none) →
      searchNatFrom cs lit fuel start = none := by
  intro fuel
  induction fuel with
  | zero => intro start _; rfl
  | succ n ih =>
    intro start h
    simp only [searchNatFrom, h start le_rfl (by omega)]
    exact ih (start + 1) (fun j hj1 hj2 => h j (by omega) (by omega))

theorem searchNat_none_of_no_marker (cs lit : List Char)
    (h : (List.range (cs.length + 1)).any (fun i => (attemptNat cs lit i).isSome) = false) :
    searchNat cs lit = none := by
  apply searchNatFrom_none
  intro j _ hj2
  rw [List.any_eq_false] at h
  have := h j (List.mem_range.mpr (by omega))
  simpa [Option.isSome_iff_ne_none] using this

/-- Claim C6: the parser never fails on missing optional fields: with no
`Keys: <integer>` marker the tree size defaults to 0, with no
`Branching Factor: <integer>` marker the branching factor defaults to 0, and
with no trial start marker the parse succeeds with an empty
`pattern_results` sequence. -/
theorem c6_missing_optional_fields (cs : List Char) :
    (hasKeysMarker cs = false → treeSizeOf cs = 0) ∧
    (hasBFMarker cs = false → bfOf cs = 0) ∧
    (hasStartMarker cs = false →
      parse_result_file cs = some ⟨treeSizeOf cs, bfOf cs, []⟩) := by
  refine ⟨?_, ?_, ?_⟩
  · intro h
    unfold treeSizeOf
    rw [searchNat_none_of_no_marker cs keysLit h]
    rfl
  · intro h
    unfold bfOf
    rw [searchNat_none_of_no_marker cs bfLit h]
    rfl
  · intro h
    exact parse_of_no_match cs (matchAt_none_of_no_start cs h)

theorem c6_missing_optional_fields_witness :
    treeSizeOf "hello world".toList = 0 ∧
    bfOf "hello world".toList = 0 ∧
    parse_result_file "hello world".toList =
      some ⟨treeSizeOf "hello world".toList, bfOf "hello world".toList, []⟩ :=
  ⟨(c6_missing_optional_fields "hello world".toList).1 (by decide),
   (c6_missing_optional_fields "hello world".toList).2.1 (by decide),
   (c6_missing_optional_fields "hello world".toList).2.2 (by decide)⟩

/-- Claim C10: a start marker with no later completion marker contributes no
`PatternResult` and raises no error (with no completion match anywhere the
parse succeeds with an empty sequence); and when two start markers precede a
single completion marker, only the first start marker's pattern name is
paired with that completion. -/
theorem c10_dangling_start_markers (cs : List Char) :
    ((∀ k, k ≤ cs.length → completionAt cs k = none) →
      parse_result_file cs = some ⟨treeSizeOf cs, bfOf cs, []⟩) ∧
    parse_result_file twoStartText = some ⟨0, 0, [⟨"alpha", 2, 8⟩]⟩ ∧
    parse_result_file danglingText = some ⟨0, 0, []⟩ := by
  refine ⟨?_, by decide, by decide⟩
  intro h
  exact parse_of_no_match cs
    (matchAt_none_of_no_completion cs (completionAt_none_everywhere cs h))

theorem c10_dangling_start_markers_witness :
    parse_result_file danglingText = some ⟨0, 0, []⟩ :=
  (c10_dangling_start_markers danglingText).1 (by decide)

/-!
## Lemmas about duration-token normalization
-/

theorem parsePyFloat_digit_or_dot (num : List Char) (q : ℚ)
    (h : parsePyFloat num = some q) : ∀ c ∈ num, c.isDigit ∨ c = '.' := by
  intro c hc
  rw [← List.takeWhile_append_dropWhile Char.isDigit num] at hc
  rcases List.mem_append.mp hc with h1 | h2
  · exact Or.inl (List.mem_takeWhile_imp h1)
  · unfold parsePyFloat at h
    split at h
    · rename_i heq
      rw [heq] at h2
      cases h2
    · rename_i frac heq
      rw [heq] at h2
      rcases List.mem_cons.mp h2 with h3 | h3
      · exact Or.inr h3
      · split at h
        · rename_i hcond
          exact Or.inl (List.all_eq_true.mp hcond.1 c h3)
        · cases h
    · cases h

theorem containsMS_append_ms (xs : List Char) : containsMS (xs ++ ['m', 's']) = true := by
  induction xs with
  | nil => decide
  | cons c xs ih =>
    cases xs with
    | nil => simp [containsMS]
    | cons c2 xs2 =>
      simp only [List.cons_append] at ih ⊢
      simp only [containsMS, ih, Bool.or_true]

theorem containsMS_false_of_no_m (xs : List Char) (h : 'm' ∉ xs) :
    containsMS xs = false := by
  induction xs with
  | nil => rfl
  | cons c xs ih =>
    have hc : c ≠ 'm' := fun hh => h (hh ▸ List.mem_cons_self c xs)
    have hrest : 'm' ∉ xs := fun hmem => h (List.mem_cons_of_mem c hmem)
    cases xs with
    | nil => rfl
    | cons c2 xs2 =>
      simp only [containsMS, ih hrest, Bool.or_false]
      simp [hc]

theorem removeMS_append_ms (xs : List Char) (h : 'm' ∉ xs) :
    removeMS (xs ++ ['m', 's']) = xs := by
  induction xs with
  | nil => decide
  | cons c xs ih =>
    have hc : c ≠ 'm' := fun hh => h (hh ▸ List.mem_cons_self c xs)
    have hrest : 'm' ∉ xs := fun hmem => h (List.mem_cons_of_mem c hmem)
    cases xs with
    | nil => simp [removeMS, hc]
    | cons c2 xs2 =>
      simp only [List.cons_append] at ih ⊢
      rw [removeMS]
      rw [if_neg (fun hh => hc hh.1)]
      rw [ih hrest]

/-- Claim C1: the duration token is normalized as the spec states: a numeric
value with a `ms` suffix is divided by 1000, a numeric value with a plain `s`
suffix is taken unchanged, and a bare numeric token is taken as seconds
unchanged. -/
theorem c1_duration_normalization (num : List Char) (q : ℚ)
    (h : parsePyFloat num = some q) :
    convertTime (num ++ ['m', 's']) = some (q / 1000) ∧
    convertTime (num ++ ['s']) = some q ∧
    convertTime num = some q := by
  have hchars := parsePyFloat_digit_or_dot num q h
  have hm : 'm' ∉ num := fun hmem => by
    rcases hchars 'm' hmem with hd | hd
    · exact absurd hd (by decide)
    · exact absurd hd (by decide)
  have hs : 's' ∉ num := fun hmem => by
    rcases hchars 's' hmem with hd | hd
    · exact absurd hd (by decide)
    · exact absurd hd (by decide)
  refine ⟨?_, ?_, ?_⟩
  · unfold convertTime
    rw [if_pos (containsMS_append_ms num), removeMS_append_ms num hm, h]
    rfl
  · have h1 : containsMS (num ++ ['s']) = false := by
      apply containsMS_false_of_no_m
      intro hmem
      rcases List.mem_append.mp hmem with h2 | h2
      · exact hm h2
      · simp at h2
    unfold convertTime
    rw [if_neg (by simp [h1])]
    rw [if_pos (by simp)]
    rw [List.filter_append]
    have h2 : num.filter (fun c => c ≠ 's') = num := by
      rw [List.filter_eq_self]
      intro a ha
      simp only [ne_eq, decide_eq_true_eq]
      intro hh
      rw [hh] at ha
      exact hs ha
    have h3 : (['s'] : List Char).filter (fun c => c ≠ 's') = [] := by decide
    rw [h2, h3, List.append_nil]
    exact h
  · have h1 : containsMS num = false := containsMS_false_of_no_m num hm
    unfold convertTime
    rw [if_neg (by simp [h1])]
    rw [if_neg (by simpa using hs)]
    exact h

theorem parsePyFloat_one_point_five : parsePyFloat ['1', '.', '5'] = some ((3 : ℚ) / 2) := by
  have h1 : List.dropWhile Char.isDigit ['1', '.', '5'] = ['.', '5'] := by decide
  have h2 : List.takeWhile Char.isDigit ['1', '.', '5'] = ['1'] := by decide
  unfold parsePyFloat
  rw [h1]
  simp only [h2]
  rw [if_pos (by decide)]
  have h3 : natOfDigits ['1'] = 1 := by decide
  have h4 : natOfDigits ['5'] = 5 := by decide
  rw [h3, h4]
  norm_num

theorem c1_duration_normalization_witness :
    convertTime (['2', '5', '0'] ++ ['m', 's']) = some ((250 : ℚ) / 1000) ∧
    convertTime (['1', '.', '5'] ++ ['s']) = some ((3 : ℚ) / 2) :=
  ⟨(c1_duration_normalization ['2', '5', '0'] 250 (by decide)).1,
   (c1_duration_normalization ['1', '.', '5'] ((3 : ℚ) / 2) parsePyFloat_one_point_five).2.1⟩

/-!
## Loader and run-level claims
-/

/-- Claim C5: the loader returns one parsed report per candidate whose file
exists, in candidate order (absent files contribute no entry and raise no
error), so the output length equals the count of present files.  The
hypothesis says every present file parses without an exception. -/
theorem c5_missing_file_tolerance (files : List (String × List Char)) (paths : List String)
    (h : ∀ p ∈ paths,
      ((lookupFile files p).all (fun c => (parse_result_file c).isSome)) = true) :
    (loadReports files paths).2 =
      some (paths.filterMap (fun p => (lookupFile files p).bind parse_result_file)) ∧
    (paths.filterMap (fun p => (lookupFile files p).bind parse_result_file)).length =
      (paths.filter (fun p => (lookupFile files p).isSome)).length := by
  induction paths with
  | nil => exact ⟨rfl, rfl⟩
  | cons p rest ih =>
    have hp := h p (List.mem_cons_self p rest)
    have hrest := ih (fun p2 hp2 => h p2 (List.mem_cons_of_mem p hp2))
    cases hl : lookupFile files p with
    | none =>
      refine ⟨?_, ?_⟩
      · simp only [loadReports, hl]
        rw [hrest.1]
        simp [List.filterMap_cons, hl]
      · simp only [List.filterMap_cons, List.filter_cons, hl]
        simpa using hrest.2
    | some c =>
      rw [hl] at hp
      simp only [Option.all_some] at hp
      obtain ⟨r, hr⟩ := Option.isSome_iff_exists.mp hp
      rcases hLR : loadReports files rest with ⟨evs, res⟩
      rw [hLR] at hrest
      have hres : res =
          some (List.filterMap (fun p => (lookupFile files p).bind parse_result_file) rest) :=
        hrest.1
      refine ⟨?_, ?_⟩
      · simp only [loadReports, hl, hr, hLR]
        simp only [List.filterMap_cons, hl, Option.some_bind, hr]
        rw [hres]
        rfl
      · simp only [List.filterMap_cons, List.filter_cons, hl, Option.some_bind, hr]
        simpa using hrest.2

theorem c5_missing_file_tolerance_witness :
    (loadReports gapFiles sizePaths).2 =
      some (sizePaths.filterMap (fun p => (lookupFile gapFiles p).bind parse_result_file)) :=
  (c5_missing_file_tolerance gapFiles sizePaths (by decide)).1

/-- Claim C8: when the results directory is absent, the run emits exactly the
diagnostic message and performs no file read and no chart write. -/
theorem c8_missing_results_dir (w : World) (h : w.resultsDirExists = false) :
    mainRun w = ([Ev.msg "Results directory not found."], false) ∧
    (∀ p, Ev.readF p ∉ (mainRun w).1) ∧
    (∀ p s, Ev.writeLineChart p s ∉ (mainRun w).1) ∧
    (∀ p n b, Ev.writeBarChart p n b ∉ (mainRun w).1) := by
  have hm : mainRun w = ([Ev.msg "Results directory not found."], false) := by
    unfold mainRun
    rw [h]
    rfl
  refine ⟨hm, ?_, ?_, ?_⟩
  · intro p
    simp [hm]
  · intro p s
    simp [hm]
  · intro p n b
    simp [hm]

theorem c8_missing_results_dir_witness :
    mainRun ⟨false, gapFiles⟩ = ([Ev.msg "Results directory not found."], false) :=
  (c8_missing_results_dir ⟨false, gapFiles⟩ rfl).1

/-- Claim C9: a candidate-value analysis that loads zero reports is skipped
with only a diagnostic (no chart, no exception), and the by-pattern analysis
aborts with only a diagnostic when its fixed report is absent. -/
theorem c9_zero_reports_skip (w : World) :
    ((lookupFile w.files "results/size_10000.txt" = none) →
     (lookupFile w.files "results/size_100000.txt" = none) →
     (lookupFile w.files "results/size_1000000.txt" = none) →
     analyze_tree_sizes w = ([Ev.msg "No tree size results found."], false)) ∧
    ((lookupFile w.files "results/bf_16.txt" = none) →
     (lookupFile w.files "results/bf_64.txt" = none) →
     (lookupFile w.files "results/bf_256.txt" = none) →
     (lookupFile w.files "results/bf_1024.txt" = none) →
     analyze_branching_factors w = ([Ev.msg "No branching factor results found."], false)) ∧
    ((lookupFile w.files patternPath = none) →
     analyze_patterns w = ([Ev.msg "File results/size_1000000.txt not found."], false)) := by
  have hsp : sizePaths =
      ["results/size_10000.txt", "results/size_100000.txt", "results/size_1000000.txt"] := by
    rfl
  have hbp : bfPaths =
      ["results/bf_16.txt", "results/bf_64.txt", "results/bf_256.txt", "results/bf_1024.txt"] := by
    rfl
  refine ⟨?_, ?_, ?_⟩
  · intro h1 h2 h3
    unfold analyze_tree_sizes
    rw [hsp]
    simp only [loadReports, h1, h2, h3]
    rfl
  · intro h1 h2 h3 h4
    unfold analyze_branching_factors
    rw [hbp]
    simp only [loadReports, h1, h2, h3, h4]
    rfl
  · intro h1
    unfold analyze_patterns
    rw [h1]
    rfl

theorem c9_zero_reports_skip_witness :
    analyze_tree_sizes ⟨true, []⟩ = ([Ev.msg "No tree size results found."], false) ∧
    analyze_branching_factors ⟨true, []⟩ = ([Ev.msg "No branching factor results found."], false) ∧
    analyze_patterns ⟨true, []⟩ = ([Ev.msg "File results/size_1000000.txt not found."], false) :=
  ⟨(c9_zero_reports_skip ⟨true, []⟩).1 rfl rfl rfl,
   (c9_zero_reports_skip ⟨true, []⟩).2.1 rfl rfl rfl rfl,
   (c9_zero_reports_skip ⟨true, []⟩).2.2 rfl⟩

/-!
## Aggregation claims
-/

theorem collectXY_inner (p : String) (x : Nat) (prs : List PatternResult) :
    ∀ acc : List Nat × List ℚ,
      prs.foldl
        (fun acc2 pr =>
          if pr.pattern = p then (acc2.1 ++ [x], acc2.2 ++ [pr.keys_per_sec]) else acc2)
        acc
      = (acc.1 ++ (prs.filter (fun pr => pr.pattern = p)).map (fun _ => x),
         acc.2 ++ (prs.filter (fun pr => pr.pattern = p)).map (fun pr => pr.keys_per_sec)) := by
  induction prs with
  | nil => intro acc; simp
  | cons pr prs ih =>
    intro acc
    by_cases hpr : pr.pattern = p
    · simp [ih, List.filter_cons, hpr]
    · simp [ih, List.filter_cons, hpr]

theorem collectXY_eq (results : List ReportMetrics) (iv : ReportMetrics → Nat) (p : String) :
    collectXY results iv p =
      (results.flatMap
        (fun r => ((r.pattern_results.filter (fun pr => pr.pattern = p)).map (fun _ => iv r))),
       results.flatMap
        (fun r => ((r.pattern_results.filter (fun pr => pr.pattern = p)).map
          (fun pr => pr.keys_per_sec)))) := by
  unfold collectXY
  suffices h : ∀ acc : List Nat × List ℚ,
      results.foldl
        (fun acc r =>
          r.pattern_results.foldl
            (fun acc2 pr =>
              if pr.pattern = p then (acc2.1 ++ [iv r], acc2.2 ++ [pr.keys_per_sec]) else acc2)
            acc)
        acc
      = (acc.1 ++ results.flatMap
          (fun r => ((r.pattern_results.filter (fun pr => pr.pattern = p)).map (fun _ => iv r))),
         acc.2 ++ results.flatMap
          (fun r => ((r.pattern_results.filter (fun pr => pr.pattern = p)).map
            (fun pr => pr.keys_per_sec)))) by
    simpa using h ([], [])
  induction results with
  | nil => intro acc; simp
  | cons r results ih =>
    intro acc
    simp only [List.foldl_cons]
    rw [collectXY_inner, ih]
    simp [List.flatMap_cons, List.append_assoc]

theorem zip_flatMap_points (iv : ReportMetrics → Nat) (p : String) :
    ∀ results : List ReportMetrics,
      (results.flatMap
        (fun r => ((r.pattern_results.filter (fun pr => pr.pattern = p)).map
          (fun _ => iv r)))).zip
      (results.flatMap
        (fun r => ((r.pattern_results.filter (fun pr => pr.pattern = p)).map
          (fun pr => pr.keys_per_sec))))
      = aggregatePointsSpec results iv p := by
  intro results
  induction results with
  | nil => rfl
  | cons r results ih =>
    simp only [List.flatMap_cons, aggregatePointsSpec] at ih ⊢
    rw [List.zip_append (by simp)]
    rw [List.zip_map']
    rw [ih]

/-- Claim C4: the aggregation's canonical series order is the lexicographic
sort of the set of distinct pattern strings across all reports, and for each
pattern the plotted points are exactly one `(independentVariable,
keysPerSecond)` pair per occurrence, reports in loader order, with no
deduplication or averaging (`aggregatePointsSpec` states the spec's words). -/
theorem c4_series_order_and_points (results : List ReportMetrics) (iv : ReportMetrics → Nat) :
    (sortedPatterns results).Sorted (· ≤ ·) ∧
    (sortedPatterns results).Nodup ∧
    (∀ p, p ∈ sortedPatterns results ↔
      ∃ r ∈ results, ∃ pr ∈ r.pattern_results, pr.pattern = p) ∧
    (∀ p, ((collectXY results iv p).1).zip ((collectXY results iv p).2) =
      aggregatePointsSpec results iv p) := by
  refine ⟨List.sorted_insertionSort _ _, ?_, ?_, ?_⟩
  · exact ((List.perm_insertionSort _ _).nodup_iff).mpr (List.nodup_dedup _)
  · intro p
    unfold sortedPatterns collectPatterns
    rw [List.mem_insertionSort, List.mem_dedup, List.mem_flatMap]
    constructor
    · rintro ⟨r, hr, hp⟩
      rw [List.mem_map] at hp
      obtain ⟨pr, hpr, hpp⟩ := hp
      exact ⟨r, hr, pr, hpr, hpp⟩
    · rintro ⟨r, hr, pr, hpr, hpp⟩
      exact ⟨r, hr, List.mem_map.mpr ⟨pr, hpr, hpp⟩⟩
  · intro p
    rw [collectXY_eq]
    exact zip_flatMap_points iv p results

/-- Claim C7: the canonical pattern order and the palette position of each
pattern are a deterministic function of the set of pattern strings alone:
two report collections with the same pattern sets get identical sorted
orders and identical pattern-to-color assignments. -/
theorem c7_color_determinism (rs1 rs2 : List ReportMetrics)
    (h : ∀ p, p ∈ collectPatterns rs1 ↔ p ∈ collectPatterns rs2) :
    sortedPatterns rs1 = sortedPatterns rs2 ∧
    ∀ iv1 iv2, (buildSeries rs1 iv1).map (fun s => (s.pattern, s.colorIdx, s.paletteSize)) =
      (buildSeries rs2 iv2).map (fun s => (s.pattern, s.colorIdx, s.paletteSize)) := by
  have hperm : List.Perm (collectPatterns rs1).dedup (collectPatterns rs2).dedup := by
    rw [List.perm_ext_iff_of_nodup (List.nodup_dedup _) (List.nodup_dedup _)]
    intro a
    rw [List.mem_dedup, List.mem_dedup]
    exact h a
  have hsorted : sortedPatterns rs1 = sortedPatterns rs2 := by
    unfold sortedPatterns
    refine List.eq_of_perm_of_sorted ?_
      (List.sorted_insertionSort _ _) (List.sorted_insertionSort _ _)
    exact ((List.perm_insertionSort _ _).trans hperm).trans
      (List.perm_insertionSort _ _).symm
  refine ⟨hsorted, fun iv1 iv2 => ?_⟩
  unfold buildSeries
  rw [hsorted, List.map_map, List.map_map]
  rfl

theorem c7_color_determinism_witness :
    sortedPatterns [⟨1, 2, [⟨"b", 1, 1⟩, ⟨"a", 1, 1⟩]⟩] =
      sortedPatterns [⟨3, 4, [⟨"a", 1, 2⟩]⟩, ⟨5, 6, [⟨"b", 2, 3⟩]⟩] :=
  (c7_color_determinism [⟨1, 2, [⟨"b", 1, 1⟩, ⟨"a", 1, 1⟩]⟩]
    [⟨3, 4, [⟨"a", 1, 2⟩]⟩, ⟨5, 6, [⟨"b", 2, 3⟩]⟩]
    (by intro p; simp [collectPatterns]; tauto)).1

/-!
## Error-propagation (C2) and by-pattern bars (C3)
-/

/-- Counterexample to claim C2: with a malformed numeric token in the first
tree-size report, the whole run aborts after the single file read — the
exception flag is set and neither the branching-factor analysis nor the
by-pattern analysis emits any event, even though the by-pattern analysis's
own input file is present and parses fine. -/
theorem c2_counterexample :
    mainRun cxRunWorld = ([Ev.readF "results/size_10000.txt"], true) ∧
    lookupFile cxRunWorld.files patternPath = some "Keys: 7".toList ∧
    parse_result_file "Keys: 7".toList = some ⟨7, 0, []⟩ := by
  refine ⟨by decide, by decide, by decide⟩

/-- Claim C2 as amended: a parsing error arising while one analysis loads
its reports is not local to that analysis: the exception propagates through
`main` and aborts the whole run, so the analyses that come after the failing
one never execute and contribute no event. -/
theorem c2_amended_error_aborts_run (w : World) (hdir : w.resultsDirExists = true) :
    ((analyze_tree_sizes w).2 = true → mainRun w = ((analyze_tree_sizes w).1, true)) ∧
    ((analyze_tree_sizes w).2 = false → (analyze_branching_factors w).2 = true →
      mainRun w = ((analyze_tree_sizes w).1 ++ (analyze_branching_factors w).1, true)) ∧
    ((analyze_tree_sizes w).2 = false → (analyze_branching_factors w).2 = false →
      (analyze_patterns w).2 = true →
      mainRun w = ((analyze_tree_sizes w).1 ++ (analyze_branching_factors w).1 ++
        (analyze_patterns w).1, true)) := by
  rcases h1 : analyze_tree_sizes w with ⟨e1, b1⟩
  rcases h2 : analyze_branching_factors w with ⟨e2, b2⟩
  rcases h3 : analyze_patterns w with ⟨e3, b3⟩
  unfold mainRun
  rw [hdir, h1, h2, h3]
  cases b1 <;> cases b2 <;> cases b3 <;> simp

theorem c2_amended_error_aborts_run_witness :
    mainRun cxRunWorld = ((analyze_tree_sizes cxRunWorld).1, true) :=
  (c2_amended_error_aborts_run cxRunWorld rfl).1 (by decide)

theorem analyze_patterns_eq (w : World) (c : List Char) (r : ReportMetrics)
    (hc : lookupFile w.files patternPath = some c)
    (hr : parse_result_file c = some r) :
    analyze_patterns w =
      ([Ev.readF patternPath,
        Ev.writeBarChart "results/pattern_performance.png" r.tree_size
          (sortPairs (r.pattern_results.map (fun pr => (pr.pattern, pr.keys_per_sec))))],
       false) := by
  simp [analyze_patterns, hc, hr]

theorem pairLE_dup_false : ¬ pairLE ("random", (8 : ℚ)) ("random", 4) := by
  rintro (h | ⟨_, h⟩)
  · exact lt_irrefl _ h
  · norm_num at h

theorem sortPairs_dup_eval :
    sortPairs [("random", (8 : ℚ)), ("random", 4)] = [("random", 4), ("random", 8)] := by
  unfold sortPairs
  simp only [List.insertionSort, List.orderedInsert]
  rw [if_neg pairLE_dup_false]

/-- Counterexample to claim C3: a report that contains the pattern `random`
twice yields two bars carrying the same pattern name, not one bar per
distinct pattern name. -/
theorem c3_counterexample :
    analyze_patterns cxPatternWorld =
      ([Ev.readF patternPath,
        Ev.writeBarChart "results/pattern_performance.png" 0
          [("random", 4), ("random", 8)]],
       false) ∧
    ¬ (([("random", (4 : ℚ)), ("random", 8)].map Prod.fst).Nodup) := by
  constructor
  · have h : analyze_patterns cxPatternWorld =
        ([Ev.readF patternPath,
          Ev.writeBarChart "results/pattern_performance.png" 0
            (sortPairs [("random", (8 : ℚ)), ("random", 4)])], false) :=
      analyze_patterns_eq cxPatternWorld dupPatternText
        ⟨0, 0, [⟨"random", 2, 8⟩, ⟨"random", 4, 4⟩]⟩ (by decide) (by decide)
    rw [h, sortPairs_dup_eval]
  · simp

/-- Claim C3 as amended: the by-pattern analysis produces one bar per
pattern-trial occurrence in the report (a duplicated pattern name yields one
bar per occurrence, with no merging), and the bars are sorted by the pair
(pattern name, throughput) — in particular they are nondecreasing in pattern
name. -/
theorem c3_amended_bar_per_occurrence (w : World) (c : List Char) (r : ReportMetrics)
    (hc : lookupFile w.files patternPath = some c)
    (hr : parse_result_file c = some r) :
    analyze_patterns w =
      ([Ev.readF patternPath,
        Ev.writeBarChart "results/pattern_performance.png" r.tree_size
          (sortPairs (r.pattern_results.map (fun pr => (pr.pattern, pr.keys_per_sec))))],
       false) ∧
    (sortPairs (r.pattern_results.map (fun pr => (pr.pattern, pr.keys_per_sec)))).Sorted
      pairLE ∧
    List.Perm (sortPairs (r.pattern_results.map (fun pr => (pr.pattern, pr.keys_per_sec))))
      (r.pattern_results.map (fun pr => (pr.pattern, pr.keys_per_sec))) ∧
    (sortPairs (r.pattern_results.map (fun pr => (pr.pattern, pr.keys_per_sec)))).Sorted
      (fun x y => x.1 ≤ y.1) := by
  refine ⟨?_, List.sorted_insertionSort _ _, List.perm_insertionSort _ _, ?_⟩
  · exact analyze_patterns_eq w c r hc hr
  · have hs := List.sorted_insertionSort pairLE
      (r.pattern_results.map (fun pr => (pr.pattern, pr.keys_per_sec)))
    refine List.Pairwise.imp ?_ hs
    intro a b hab
    rcases hab with h | ⟨h, _⟩
    · exact le_of_lt h
    · exact le_of_eq h

theorem c3_amended_bar_per_occurrence_witness :
    analyze_patterns cxPatternWorld =
      ([Ev.readF patternPath,
        Ev.writeBarChart "results/pattern_performance.png" 0
          (sortPairs [("random", 8), ("random", 4)])],
       false) :=
  (c3_amended_bar_per_occurrence cxPatternWorld dupPatternText
    ⟨0, 0, [⟨"random", 2, 8⟩, ⟨"random", 4, 4⟩]⟩ (by decide) (by decide)).1
